import Mathlib

/-!
# Verification of the Downloads-folder cleanup agent

Shallow embedding of `src/download_cleanup_agent.py` and proofs of the
specification's testable properties.

Modelling conventions:
* Python dicts with a fixed key set become Lean structures; a key that may be
  absent becomes an `Option` field.
* `datetime` timestamps are carried as their ISO-8601 `String` rendering, the
  form in which the Python code stores and compares them
  (`modified_date` is compared lexicographically by `sorted`, which for
  ISO-8601 strings coincides with chronological order).
* The filesystem visible to the agent is a map from absolute path strings to
  entries; an entry is absent, or present with a byte size and an optional
  error that `unlink` would raise for it.
* Interactive `questionary` prompts are modelled by their answers, supplied as
  inputs: `.ask()` returns `none` when the prompt is cancelled/dismissed.
* Python floats appear only in display strings and in `total_freed_mb`; the
  latter is modelled exactly in `ℚ` (each summand is `st_size / 1048576`).
-/

namespace DownloadCleanup

/-! ## Python string primitives, modelled at the character level

Python compares strings code-point-lexicographically, lowercases them
character by character and splits them on a separator character.  These are
modelled directly over the `List Char` contents of a `String` (the same
order and maps as Lean's `String.le`, `String.toLower` and `String.splitOn`,
stated over `data` so that they compute). -/

/-- Code-point lexicographic `≤` on character lists: the comparison Python's
`sorted` applies to the `modified_date` strings. -/
def charListLe : List Char → List Char → Bool
  | [], _ => true
  | _ :: _, [] => false
  | a :: as, b :: bs =>
    if a < b then true
    else if b < a then false
    else charListLe as bs

/-- Python string `≤` (code-point lexicographic). -/
def strLe (a b : String) : Bool :=
  charListLe a.data b.data

/-- Python's `str.lower()`: per-character lowercasing. -/
def strLower (s : String) : String :=
  ⟨s.data.map Char.toLower⟩

/-- Python's `str.split(sep)` for a single-character separator, specialized
to `/`: accumulate the current component, emit it at each separator. -/
def splitSlashAux : List Char → List Char → List String
  | [], acc => [⟨acc.reverse⟩]
  | c :: cs, acc =>
    if c = '/' then ⟨acc.reverse⟩ :: splitSlashAux cs []
    else splitSlashAux cs (c :: acc)

/-- One scanned entry, as built by `scan_downloads_folder` (the dict of
lines 39–48 of the source).  The derived float field `size_mb` is display-only
and omitted; `size_bytes` is the authoritative size. -/
structure FileInfo where
  name : String
  path : String
  size_bytes : Nat
  extension : String
  modified_date : String
  is_file : Bool
  is_dir : Bool
deriving DecidableEq, Repr

/-- `filter_kept_files` (source line 330–332):
`[f for f in files if f["name"] not in kept_filenames]`. -/
def filter_kept_files (files : List FileInfo) (kept_filenames : List String) :
    List FileInfo :=
  files.filter (fun f => !(kept_filenames.contains f.name))

/-- The sort key comparison used by `format_files_for_prompt` (source line 60):
Python's `sorted(files, key=lambda x: (-x["size_bytes"], x["modified_date"]))`
compares the tuples `(-size_bytes, modified_date)` lexicographically. -/
def fileLe (a b : FileInfo) : Bool :=
  decide (b.size_bytes < a.size_bytes) ||
    (decide (a.size_bytes = b.size_bytes) &&
      strLe a.modified_date b.modified_date)

/-- The `sorted_files` intermediate of `format_files_for_prompt` (source
line 60).  Python's `sorted` is a stable sort by the key tuple; `mergeSort`
is the stable sort of the same boolean comparison. -/
def sortFilesForPrompt (files : List FileInfo) : List FileInfo :=
  files.mergeSort fileLe

/-- One rendered line of the prompt (source lines 64–70).  The leading emoji
of the f-string and the floating-point `size_mb` segment are display-only
decoration and elided; each entry still renders to exactly one line, in the
sorted order. -/
def promptLine (f : FileInfo) : String :=
  (if f.is_dir then "Folder" else "File") ++ ": " ++ f.name ++
    " | Modified: " ++ f.modified_date.take 10 ++
    " | Extension: " ++ (if f.extension = "" then "none" else f.extension)

/-- `format_files_for_prompt` (source lines 57–72): sort, render each entry to
a line, join with newlines. -/
def format_files_for_prompt (files : List FileInfo) : String :=
  String.intercalate "\n" ((sortFilesForPrompt files).map promptLine)

/-- Entry A of the spec's ordering law: size 10, modified day 1. -/
def fileA : FileInfo :=
  ⟨"A", "/d/A", 10, "", "2024-01-01", true, false⟩

/-- Entry B of the spec's ordering law: size 10, modified day 5. -/
def fileB : FileInfo :=
  ⟨"B", "/d/B", 10, "", "2024-01-05", true, false⟩

/-- Entry C of the spec's ordering law: size 5, modified day 1. -/
def fileC : FileInfo :=
  ⟨"C", "/d/C", 5, "", "2024-01-01", true, false⟩

/-! ## Advisory oracle payload and its consumers -/

/-- One element of the oracle's `suggestions` array.  The code accesses every
key except `filename` through `dict.get` with a default, so each such key is
an `Option` field; `filename` is accessed with `item['filename']` (the code
assumes its presence).  `size_mb` and `age_days` are display-only numbers. -/
structure SuggestionItem where
  filename : String
  reason : Option String
  confidence : Option String
  size_mb : Option ℚ
  age_days : Option Int
deriving DecidableEq, Repr

/-- The `summary` object of the oracle payload; purely display-only, every
key read through `dict.get` with a default. -/
structure OracleSummary where
  total_files_scanned : Option Int
  files_suggested_for_deletion : Option Int
  total_space_to_free_mb : Option ℚ
  keep_recent_days : Option Int
deriving DecidableEq, Repr

/-- A JSON object as `json.loads` returns it for an oracle response: either
key may be absent. -/
structure OraclePayload where
  suggestions : Option (List SuggestionItem)
  summary : Option OracleSummary
deriving DecidableEq, Repr

/-- The error raised by the parse path of `get_deletion_suggestions`. -/
inductive AgentError where
  | jsonDecodeError
deriving DecidableEq, Repr

/-- The response-handling tail of `get_deletion_suggestions` (source
lines 137–142): `result = json.loads(content); return result`, with
`json.JSONDecodeError` logged (raw response printed) and re-raised.  The
input models the decoded response text: `none` when `json.loads` rejects it,
`some payload` when it decodes to a JSON object.  No shape validation is
performed on a successfully decoded payload. -/
def get_deletion_suggestions (resp : Option OraclePayload) :
    Except AgentError OraclePayload :=
  match resp with
  | none => .error .jsonDecodeError
  | some payload => .ok payload

/-- `suggestions.get("suggestions", [])`, the access used at source
lines 160, 209, 247 and 397. -/
def suggestionList (p : OraclePayload) : List SuggestionItem :=
  p.suggestions.getD []

/-- `item.get("confidence", "").lower()`, the confidence normalization used
by `display_suggestions`, `mark_files_as_keep` and
`interactive_file_selection`. -/
def confidenceKey (s : SuggestionItem) : String :=
  strLower (s.confidence.getD "")

/-- The suggestions actually listed by `display_suggestions` (source
lines 167–200), in print order: the `high_conf`, `medium_conf` and `low_conf`
groups.  A suggestion matching none of the three comprehensions appears in no
group. -/
def display_suggestions_listed (p : OraclePayload) : List SuggestionItem :=
  let l := suggestionList p
  l.filter (fun s => confidenceKey s == "high") ++
    l.filter (fun s => confidenceKey s == "medium") ++
    l.filter (fun s => confidenceKey s == "low")

/-- The emoji lookup `{...}.get(item.get("confidence", "").lower(), "⚪")`
(source lines 216–220 and 254–258). -/
def confidence_emoji (s : SuggestionItem) : String :=
  let c := confidenceKey s
  if c = "high" then "🔴"
  else if c = "medium" then "🟡"
  else if c = "low" then "🟢"
  else "⚪"

/-- Reason truncation (source lines 222–225): default `N/A`, truncate to 57
characters plus an ellipsis when longer than 60. -/
def truncatedReason (s : SuggestionItem) : String :=
  let reason := s.reason.getD "N/A"
  if 60 < reason.length then reason.take 57 ++ "..." else reason

/-- A `questionary.Choice`: a display title and the value returned when the
operator selects it. -/
structure Choice where
  title : String
  value : String
deriving DecidableEq, Repr

/-- The choice built for one suggestion (source lines 227–234 and 265–272):
value is the filename; the title carries the confidence emoji, filename and
truncated reason (the floating-point size segment of the label is elided). -/
def choiceOfItem (item : SuggestionItem) : Choice :=
  { title := confidence_emoji item ++ " " ++ item.filename ++ " - " ++
      truncatedReason item
    value := item.filename }

/-- The checkbox choices presented by `interactive_file_selection`
(source lines 251–272): one per suggestion, in batch order. -/
def interactive_file_selection_choices (p : OraclePayload) : List Choice :=
  (suggestionList p).map choiceOfItem

/-- `interactive_file_selection` (source lines 245–280): empty batch returns
`[]` without prompting; otherwise the checkbox answer, with a cancelled
prompt (`ask()` returning `None`) normalized to `[]` by `selected or []`. -/
def interactive_file_selection (p : OraclePayload)
    (answer : Option (List String)) : List String :=
  if suggestionList p = [] then [] else answer.getD []

/-- The checkbox choices presented by `mark_files_as_keep`
(source lines 213–234): one per suggestion of the original batch. -/
def mark_files_as_keep_choices (p : OraclePayload) : List Choice :=
  (suggestionList p).map choiceOfItem

/-- `mark_files_as_keep` (source lines 207–242): empty batch returns `[]`;
otherwise the checkbox answer, `esc`/cancel normalized to `[]`. -/
def mark_files_as_keep (p : OraclePayload)
    (answer : Option (List String)) : List String :=
  if suggestionList p = [] then [] else answer.getD []

/-! ## Suppression store -/

/-- One persisted entry of `kept_files.json`. -/
structure KeptEntry where
  filename : String
  marked_date : String
  reason : String
deriving DecidableEq, Repr

/-- The store contents: the `kept_files` array plus
`metadata.last_updated`. -/
structure KeptData where
  kept_files : List KeptEntry
  last_updated : Option String
deriving DecidableEq, Repr

/-- The filename multiset of the store, in order; the source's
`existing_filenames` set membership test is `contains` on this list. -/
def keptFilenames (d : KeptData) : List String :=
  d.kept_files.map (fun e => e.filename)

/-- `save_kept_file` (source lines 298–327) as a transformation of the store
contents: if the filename is already present do nothing, otherwise append a
new entry with the current timestamp and fixed reason and bump
`metadata.last_updated`.  (Loading the store from disk and the warn-only
handling of a failed write are the persistence shim around this.) -/
def save_kept_file (filename : String) (now : String) (d : KeptData) :
    KeptData :=
  if (keptFilenames d).contains filename then d
  else
    { kept_files := d.kept_files ++
        [{ filename := filename, marked_date := now,
           reason := "User explicitly marked as keep" }]
      last_updated := some now }

/-! ## Filesystem model and deletion executor -/

/-- State of one path in the visible filesystem: absent, or present with its
current byte size and an optional error that an `unlink` attempt raises
(modelling permission errors and the like; a failed `unlink` leaves the entry
in place). -/
inductive FsEntry where
  | absent
  | present (size_bytes : Nat) (unlinkError : Option String)
deriving DecidableEq, Repr

/-- The filesystem: a map from absolute path strings to entries. -/
def Fs : Type := String → FsEntry

/-- Byte size of an entry (`0` for an absent one). -/
def FsEntry.size : FsEntry → Nat
  | .absent => 0
  | .present s _ => s

/-- `downloads_path / filename` (source line 342): `pathlib` joins the two
with a separator and performs no sanitization of the oracle-supplied
filename. -/
def resolveTarget (downloads_path filename : String) : String :=
  downloads_path ++ "/" ++ filename

/-- The summary dict returned by `delete_selected_files` (source
lines 354–359).  `failed` keeps each failure as the pair
`(filename, reason)`; the Python code stores the single display string
`filename ++ " (" ++ reason ++ ")"`, recovered by `failedStrings`. -/
structure DeletionOutcome where
  deleted : List String
  failed : List (String × String)
  total_freed_mb : ℚ
  count : Nat
deriving DecidableEq, Repr

/-- The failure strings exactly as the Python code appends them to
`failed` (source lines 350 and 352). -/
def failedStrings (o : DeletionOutcome) : List String :=
  o.failed.map (fun pr => pr.1 ++ " (" ++ pr.2 ++ ")")

/-- The effect of a successful `unlink` on the filesystem: the path becomes
absent, everything else is untouched. -/
def fsRemove (fs : Fs) (path : String) : Fs :=
  fun p => if p = path then .absent else fs p

/-- The loop body of `delete_selected_files` (source lines 341–352), one
iteration per selected filename, threading the filesystem: if the resolved
path exists, re-stat its size, unlink it and accumulate the freed
`size / 1048576` megabytes; if absent, record a `not found` failure; if the
removal raises, record an `error: msg` failure and leave the entry alone. -/
def deleteLoop (downloads_path : String) :
    List String → Fs → List String × List (String × String) × ℚ × Fs
  | [], fs => ([], [], 0, fs)
  | filename :: rest, fs =>
    let file_path := resolveTarget downloads_path filename
    match fs file_path with
    | .present size none =>
      let r := deleteLoop downloads_path rest (fsRemove fs file_path)
      (filename :: r.1, r.2.1, (size : ℚ) / 1048576 + r.2.2.1, r.2.2.2)
    | .present _ (some msg) =>
      let r := deleteLoop downloads_path rest fs
      (r.1, (filename, "error: " ++ msg) :: r.2.1, r.2.2.1, r.2.2.2)
    | .absent =>
      let r := deleteLoop downloads_path rest fs
      (r.1, (filename, "not found") :: r.2.1, r.2.2.1, r.2.2.2)

/-- `delete_selected_files` (source lines 335–359): run the loop and package
the outcome dict (`count` is `len(deleted)`). -/
def delete_selected_files (selected_filenames : List String)
    (downloads_path : String) (fs : Fs) : DeletionOutcome × Fs :=
  let r := deleteLoop downloads_path selected_filenames fs
  ({ deleted := r.1, failed := r.2.1, total_freed_mb := r.2.2.1,
     count := r.1.length },
   r.2.2.2)

/-- A small concrete filesystem for instantiating the executor's contract:
`/d/a` and `/d/b` exist (1 MiB and 2 MiB, no unlink errors), every other
path is absent. -/
def fsExample : Fs :=
  fun p =>
    if p = "/d/a" then .present 1048576 none
    else if p = "/d/b" then .present 2097152 none
    else .absent

/-! ## Path containment analysis (for the untrusted-filename join) -/

/-- Split a path string on `/` separators. -/
def pathComponents (s : String) : List String :=
  splitSlashAux s.data []

/-- Lexical resolution of `.` , `..` and empty components, as the operating
system resolves the joined path when `unlink` receives it. -/
def normalizePath (comps : List String) : List String :=
  comps.foldl
    (fun acc c =>
      if c = ".." then acc.dropLast
      else if c = "." ∨ c = "" then acc
      else acc ++ [c]) []

/-- Whether the path attacked by `delete_selected_files` for `filename`
stays inside the scanned directory's subtree after resolution. -/
def staysWithin (downloads_path filename : String) : Bool :=
  (normalizePath (pathComponents downloads_path)).isPrefixOf
    (normalizePath (pathComponents (resolveTarget downloads_path filename)))

/-! ## The interactive tail of `run_cleanup_session` -/

/-- The operator's answers to the three prompts of one session
(source lines 400, 404–407 and 428): each is `none` when the corresponding
`questionary` prompt is cancelled or dismissed. -/
structure SessionAnswers where
  deleteSelection : Option (List String)
  confirmAnswer : Option Bool
  keepSelection : Option (List String)

/-- What the interactive tail of a session produces: the deletion outcome
(`none` when `delete_selected_files` was never invoked), the resulting
filesystem and suppression store, and the choices offered at the keep
step. -/
structure SessionResult where
  outcome : Option DeletionOutcome
  fs : Fs
  store : KeptData
  keepChoices : List Choice

/-- Source lines 396–432 of `run_cleanup_session`: the region following the
side-channel write of the suggestion artifact.  With a non-empty suggestion
batch: collect the delete-selection; on a non-empty selection ask the
confirmation prompt (`default=False`, and `if confirm:` treats a cancelled
prompt's `None` as false); only on an affirmative answer run
`delete_selected_files`; then, in every case, offer the keep checklist over
the original batch and fold `save_kept_file` over the marked names.
All `datetime.now()` calls of the region are modelled by one timestamp
`now` (no claim depends on the timestamps). -/
def run_cleanup_session (p : OraclePayload) (downloads_path : String)
    (fs : Fs) (store : KeptData) (ans : SessionAnswers) (now : String) :
    SessionResult :=
  if suggestionList p = [] then
    { outcome := none, fs := fs, store := store, keepChoices := [] }
  else
    let selected_files := interactive_file_selection p ans.deleteSelection
    let del :=
      if selected_files = [] then (none, fs)
      else if ans.confirmAnswer.getD false then
        let r := delete_selected_files selected_files downloads_path fs
        (some r.1, r.2)
      else (none, fs)
    let keep_files := mark_files_as_keep p ans.keepSelection
    let store2 := keep_files.foldl (fun acc fn => save_kept_file fn now acc) store
    { outcome := del.1, fs := del.2, store := store2,
      keepChoices := mark_files_as_keep_choices p }

end DownloadCleanup

namespace DownloadCleanup

/-! ## Helper lemmas -/

theorem charListLe_iff_not_lt : ∀ as bs : List Char,
    charListLe as bs = true ↔ ¬ List.lt bs as
  | [], bs => by
    simp only [charListLe]
    constructor
    · intro _ h
      cases h
    · intro _
      trivial
  | a :: as, [] => by
    simp only [charListLe]
    constructor
    · intro h
      cases h
    · intro h
      exact absurd (List.lt.nil a as) h
  | a :: as, b :: bs => by
    simp only [charListLe]
    by_cases hab : a < b
    · simp only [if_pos hab, true_iff]
      intro h
      cases h with
      | head _ _ hba => exact absurd hba (asymm hab)
      | tail h1 h2 _ => exact absurd hab h2
    · by_cases hba : b < a
      · simp only [if_neg hab, if_pos hba]
        constructor
        · intro h
          cases h
        · intro h
          exact absurd (List.lt.head bs as hba) h
      · simp only [if_neg hab, if_neg hba]
        rw [charListLe_iff_not_lt as bs]
        constructor
        · intro h hl
          cases hl with
          | head _ _ h2 => exact absurd h2 hba
          | tail _ _ h2 => exact absurd h2 h
        · intro h hl
          exact h (List.lt.tail hba hab hl)

/-- `strLe` agrees with the standard linear order on `String`. -/
theorem strLe_iff (a b : String) : strLe a b = true ↔ a ≤ b := by
  rw [strLe, charListLe_iff_not_lt, List.lt_iff_lex_lt, ← not_lt,
    String.lt_iff_toList_lt]
  exact ⟨fun h h2 => h h2, fun h h2 => h h2⟩

/-- `fileLe` is the tuple order `(-size_bytes, modified_date)`. -/
theorem fileLe_iff (a b : FileInfo) :
    fileLe a b = true ↔
      b.size_bytes < a.size_bytes ∨
        (a.size_bytes = b.size_bytes ∧ a.modified_date ≤ b.modified_date) := by
  simp [fileLe, strLe_iff]

theorem fileLe_trans (a b c : FileInfo) :
    fileLe a b → fileLe b c → fileLe a c := by
  intro hab hbc
  rw [fileLe_iff] at *
  rcases hab with h1 | ⟨h1, d1⟩
  · rcases hbc with h2 | ⟨h2, _⟩
    · exact Or.inl (h2.trans h1)
    · exact Or.inl (h2 ▸ h1)
  · rcases hbc with h2 | ⟨h2, d2⟩
    · exact Or.inl (h1 ▸ h2)
    · exact Or.inr ⟨h1.trans h2, d1.trans d2⟩

theorem fileLe_total (a b : FileInfo) : fileLe a b || fileLe b a := by
  rcases Nat.lt_trichotomy a.size_bytes b.size_bytes with h | h | h
  · simp [fileLe_iff, h]
  · rcases le_total a.modified_date b.modified_date with hd | hd
    · simp [fileLe_iff, h, hd]
    · simp [fileLe_iff, h, hd]
  · simp [fileLe_iff, h]

/-- C3: `filter(records, suppressed)` returns exactly the records whose name
is not in the suppressed set, preserves the relative input order of the
retained records (the output is a sublist of the input), and is idempotent. -/
theorem filter_kept_files_spec (files : List FileInfo) (kept : List String) :
    (∀ f : FileInfo,
        f ∈ filter_kept_files files kept ↔ f ∈ files ∧ f.name ∉ kept) ∧
    (filter_kept_files files kept).Sublist files ∧
    filter_kept_files (filter_kept_files files kept) kept =
      filter_kept_files files kept := by
  refine ⟨fun f => ?_, List.filter_sublist _, ?_⟩
  · simp [filter_kept_files, List.mem_filter]
  · simp [filter_kept_files, List.filter_filter]

/-- C5: the rendering sent to the advisory oracle presents the entries as a
permutation of the input ordered by descending size with ascending
modification time as the tiebreak among equal sizes; in particular the
entries A(size 10, day 1), B(size 10, day 5), C(size 5, day 1) are rendered
in the order A, B, C. -/
theorem format_files_for_prompt_order (files : List FileInfo) :
    format_files_for_prompt files =
      String.intercalate "\n" ((sortFilesForPrompt files).map promptLine) ∧
    (sortFilesForPrompt files).Perm files ∧
    (sortFilesForPrompt files).Pairwise (fun a b =>
      b.size_bytes < a.size_bytes ∨
        (a.size_bytes = b.size_bytes ∧ a.modified_date ≤ b.modified_date)) ∧
    sortFilesForPrompt [fileB, fileC, fileA] = [fileA, fileB, fileC] := by
  refine ⟨rfl, List.mergeSort_perm files fileLe, ?_, ?_⟩
  · have h := @List.sorted_mergeSort FileInfo fileLe
      (fun a b c => fileLe_trans a b c) (fun a b => fileLe_total a b) files
    exact h.imp (fun hab => (fileLe_iff _ _).mp hab)
  · simp [sortFilesForPrompt, List.mergeSort, List.splitInTwo, List.merge,
      fileLe, fileA, fileB, fileC, strLe, charListLe]

/-- C2 counterexample: the payload `{}` — valid JSON with no `suggestions`
key — is returned successfully by the parse path rather than signalled as
malformed, and downstream access defaults the missing key to the empty
suggestion list. -/
theorem get_deletion_suggestions_missing_key_accepted :
    get_deletion_suggestions (some { suggestions := none, summary := none }) =
      Except.ok { suggestions := none, summary := none } ∧
    suggestionList { suggestions := none, summary := none } = [] :=
  ⟨rfl, rfl⟩

/-- C2 (amended): the parse path of the advisory client performs no shape
validation and is fatal exactly for JSON-decode failures: a response that
fails to decode raises the decode error with no automatic retry, while every
successfully decoded payload — including one without the required
`suggestions` key — is returned as-is, the missing key later defaulted to
the empty list by each consumer. -/
theorem get_deletion_suggestions_amended (resp : Option OraclePayload) :
    (resp = none →
      get_deletion_suggestions resp =
        Except.error AgentError.jsonDecodeError) ∧
    (∀ p : OraclePayload, resp = some p →
      get_deletion_suggestions resp = Except.ok p) ∧
    (∀ p : OraclePayload, p.suggestions = none → suggestionList p = []) := by
  refine ⟨fun h => ?_, fun p h => ?_, fun p h => ?_⟩
  · rw [h]; rfl
  · rw [h]; rfl
  · simp [suggestionList, h]

/-- Witness for `get_deletion_suggestions_amended`, at an undecodable
response and at a decoded minimal payload. -/
theorem get_deletion_suggestions_amended_witness :
    get_deletion_suggestions none =
      Except.error AgentError.jsonDecodeError ∧
    get_deletion_suggestions (some { suggestions := some [], summary := none }) =
      Except.ok { suggestions := some [], summary := none } :=
  ⟨(get_deletion_suggestions_amended none).1 rfl,
   (get_deletion_suggestions_amended
      (some { suggestions := some [], summary := none })).2.1 _ rfl⟩

/-- C6 counterexample: a suggestion whose confidence is `unknown` is in the
batch (the header counts one suggestion) but belongs to none of the high,
medium and low groups that `display_suggestions` prints — the sole
suggestion of this batch is dropped from the bucketed presentation. -/
theorem display_suggestions_drops_unknown_confidence :
    display_suggestions_listed
        { suggestions :=
            some [⟨"mystery.bin", some "r", some "unknown", none, none⟩]
          summary := none } = [] ∧
    (suggestionList
        { suggestions :=
            some [⟨"mystery.bin", some "r", some "unknown", none, none⟩]
          summary := none }).length = 1 :=
  ⟨rfl, rfl⟩

/-- C6 (amended): the selection and keep checkboxes handle every suggestion
of the batch — one whose confidence is not high/medium/low still appears as
a choice, with the default lowest-trust emoji — but the bucketed listing of
`display_suggestions` shows only high/medium/low suggestions and silently
omits all others. -/
theorem unknown_confidence_default_bucket (p : OraclePayload) :
    ((interactive_file_selection_choices p).map Choice.value =
      (suggestionList p).map SuggestionItem.filename) ∧
    ((mark_files_as_keep_choices p).map Choice.value =
      (suggestionList p).map SuggestionItem.filename) ∧
    (∀ s ∈ suggestionList p,
      confidenceKey s ∉ (["high", "medium", "low"] : List String) →
        confidence_emoji s = "⚪" ∧ s ∉ display_suggestions_listed p) := by
  refine ⟨?_, ?_, fun s hs hconf => ?_⟩
  · simp [interactive_file_selection_choices, choiceOfItem]
  · simp [mark_files_as_keep_choices, choiceOfItem]
  · simp only [List.mem_cons, List.not_mem_nil, or_false, not_or] at hconf
    obtain ⟨h1, h2, h3⟩ := hconf
    constructor
    · simp only [confidence_emoji]
      rw [if_neg h1, if_neg h2, if_neg h3]
    · simp only [display_suggestions_listed, List.mem_append, List.mem_filter,
        beq_iff_eq, not_or]
      exact ⟨⟨fun h => h1 h.2, fun h => h2 h.2⟩, fun h => h3 h.2⟩

/-- Witness for `unknown_confidence_default_bucket`, at a batch holding one
`unknown`-confidence suggestion. -/
theorem unknown_confidence_default_bucket_witness :
    ⟨"mystery.bin", some "r", some "unknown", none, none⟩ ∈
      suggestionList
        { suggestions :=
            some [⟨"mystery.bin", some "r", some "unknown", none, none⟩]
          summary := none } ∧
    confidence_emoji ⟨"mystery.bin", some "r", some "unknown", none, none⟩ =
      "⚪" :=
  ⟨by decide,
   ((unknown_confidence_default_bucket
      { suggestions :=
          some [⟨"mystery.bin", some "r", some "unknown", none, none⟩]
        summary := none }).2.2
      ⟨"mystery.bin", some "r", some "unknown", none, none⟩
      (by decide) (by decide)).1⟩

/-- C7: suppression add is idempotent: adding an already-present filename is
a no-op, re-adding right after an add is a no-op regardless of the store, and
on any deduplicated store (at most one entry per filename, the invariant the
code's own writes maintain) adding the same filename twice leaves exactly one
entry for it. -/
theorem save_kept_file_idempotent (d : KeptData) (fn t1 t2 : String) :
    (fn ∈ keptFilenames d → save_kept_file fn t1 d = d) ∧
    save_kept_file fn t2 (save_kept_file fn t1 d) = save_kept_file fn t1 d ∧
    ((keptFilenames d).count fn ≤ 1 →
      (keptFilenames (save_kept_file fn t2 (save_kept_file fn t1 d))).count fn
        = 1) := by
  have heq : ∀ (t : String) (d2 : KeptData),
      save_kept_file fn t d2 =
        if fn ∈ keptFilenames d2 then d2
        else ⟨d2.kept_files ++
          [⟨fn, t, "User explicitly marked as keep"⟩], some t⟩ := by
    intro t d2
    rw [save_kept_file]
    by_cases h : fn ∈ keptFilenames d2
    · rw [if_pos h]
      simp [List.contains, List.elem_eq_mem, h]
    · rw [if_neg h]
      simp [List.contains, List.elem_eq_mem, h]
  have hmem : ∀ (t : String), fn ∈ keptFilenames (save_kept_file fn t d) := by
    intro t
    rw [heq]
    by_cases h : fn ∈ keptFilenames d
    · rw [if_pos h]
      exact h
    · rw [if_neg h]
      simp [keptFilenames]
  have hnoop : ∀ (d2 : KeptData) (t : String),
      fn ∈ keptFilenames d2 → save_kept_file fn t d2 = d2 := by
    intro d2 t h
    rw [heq, if_pos h]
  refine ⟨hnoop d t1, hnoop _ t2 (hmem t1), fun hcount => ?_⟩
  rw [hnoop _ t2 (hmem t1)]
  by_cases h : fn ∈ keptFilenames d
  · rw [hnoop d t1 h]
    have hpos := List.count_pos_iff.2 h
    omega
  · have hzero := List.count_eq_zero.2 h
    rw [heq, if_neg h]
    simp [keptFilenames] at hzero ⊢
    simp [List.count_append, hzero]

/-- Witness for `save_kept_file_idempotent`: two adds of `a.txt` to the empty
store leave exactly one entry for it. -/
theorem save_kept_file_idempotent_witness :
    ("a.txt" ∈ keptFilenames (save_kept_file "a.txt" "t1" ⟨[], none⟩) →
      save_kept_file "a.txt" "t2" (save_kept_file "a.txt" "t1" ⟨[], none⟩) =
        save_kept_file "a.txt" "t1" ⟨[], none⟩) ∧
    (keptFilenames
        (save_kept_file "a.txt" "t2"
          (save_kept_file "a.txt" "t1" ⟨[], none⟩))).count "a.txt" = 1 :=
  ⟨fun h => (save_kept_file_idempotent
      (save_kept_file "a.txt" "t1" ⟨[], none⟩) "a.txt" "t2" "t2").1 h,
   (save_kept_file_idempotent ⟨[], none⟩ "a.txt" "t1" "t2").2.2 (by decide)⟩

/-! ## Deletion-executor lemmas -/

/-- Unfolding equation of `deleteLoop` at a cons cell. -/
theorem deleteLoop_cons (dp n : String) (rest : List String) (fs : Fs) :
    deleteLoop dp (n :: rest) fs =
      match fs (resolveTarget dp n) with
      | .present size none =>
        let r := deleteLoop dp rest (fsRemove fs (resolveTarget dp n))
        (n :: r.1, r.2.1, (size : ℚ) / 1048576 + r.2.2.1, r.2.2.2)
      | .present _ (some msg) =>
        let r := deleteLoop dp rest fs
        (r.1, (n, "error: " ++ msg) :: r.2.1, r.2.2.1, r.2.2.2)
      | .absent =>
        let r := deleteLoop dp rest fs
        (r.1, (n, "not found") :: r.2.1, r.2.2.1, r.2.2.2) :=
  rfl

/-- Every selected filename ends in exactly one of `deleted` and `failed`:
the loop never aborts early. -/
theorem deleteLoop_length (dp : String) :
    ∀ (sel : List String) (fs : Fs),
      (deleteLoop dp sel fs).1.length + (deleteLoop dp sel fs).2.1.length
        = sel.length
  | [], _ => rfl
  | n :: rest, fs => by
    rw [deleteLoop_cons]
    rcases fs (resolveTarget dp n) with _ | ⟨s, _ | msg⟩
    · dsimp only
      have h := deleteLoop_length dp rest fs
      simp only [List.length_cons]
      omega
    · dsimp only
      have h := deleteLoop_length dp rest (fsRemove fs (resolveTarget dp n))
      simp only [List.length_cons]
      omega
    · dsimp only
      have h := deleteLoop_length dp rest fs
      simp only [List.length_cons]
      omega

/-- Deleted filenames come from the selection. -/
theorem deleteLoop_deleted_subset (dp : String) :
    ∀ (sel : List String) (fs : Fs),
      ∀ x ∈ (deleteLoop dp sel fs).1, x ∈ sel
  | [], _ => by
    intro x hx
    cases hx
  | n :: rest, fs => by
    rw [deleteLoop_cons]
    rcases fs (resolveTarget dp n) with _ | ⟨s, _ | msg⟩
    · dsimp only
      intro x hx
      exact List.mem_cons_of_mem _ (deleteLoop_deleted_subset dp rest fs x hx)
    · dsimp only
      intro x hx
      rcases List.mem_cons.mp hx with rfl | hx2
      · exact List.mem_cons_self x rest
      · exact List.mem_cons_of_mem _
          (deleteLoop_deleted_subset dp rest _ x hx2)
    · dsimp only
      intro x hx
      exact List.mem_cons_of_mem _ (deleteLoop_deleted_subset dp rest fs x hx)

/-- Failure records name filenames from the selection. -/
theorem deleteLoop_failed_subset (dp : String) :
    ∀ (sel : List String) (fs : Fs),
      ∀ pr ∈ (deleteLoop dp sel fs).2.1, pr.1 ∈ sel
  | [], _ => by
    intro pr hpr
    cases hpr
  | n :: rest, fs => by
    rw [deleteLoop_cons]
    rcases fs (resolveTarget dp n) with _ | ⟨s, _ | msg⟩
    · dsimp only
      intro pr hpr
      rcases List.mem_cons.mp hpr with rfl | hpr2
      · exact List.mem_cons_self n rest
      · exact List.mem_cons_of_mem _
          (deleteLoop_failed_subset dp rest fs pr hpr2)
    · dsimp only
      intro pr hpr
      exact List.mem_cons_of_mem _ (deleteLoop_failed_subset dp rest _ pr hpr)
    · dsimp only
      intro pr hpr
      rcases List.mem_cons.mp hpr with rfl | hpr2
      · exact List.mem_cons_self n rest
      · exact List.mem_cons_of_mem _
          (deleteLoop_failed_subset dp rest fs pr hpr2)

/-- Every successfully deleted filename denoted an entry that was present
(with no pending unlink error) in the filesystem the loop started from, and
the accumulated megabytes are exactly the sum of those entries' sizes —
the size re-observed at deletion time equals the starting size, because the
loop's only mutation is removal. -/
theorem deleteLoop_freed (dp : String) :
    ∀ (sel : List String) (fs : Fs),
      (∀ n ∈ (deleteLoop dp sel fs).1,
        ∃ s : Nat, fs (resolveTarget dp n) = .present s none) ∧
      (deleteLoop dp sel fs).2.2.1 =
        ((deleteLoop dp sel fs).1.map
          (fun n => ((fs (resolveTarget dp n)).size : ℚ) / 1048576)).sum
  | [], _ => by
    constructor
    · intro n hn
      cases hn
    · rfl
  | n :: rest, fs => by
    rw [deleteLoop_cons]
    rcases hfs : fs (resolveTarget dp n) with _ | ⟨s, _ | msg⟩
    · dsimp only
      have ih := deleteLoop_freed dp rest fs
      constructor
      · intro x hx
        exact ih.1 x hx
      · rw [ih.2]
    · dsimp only
      have ih := deleteLoop_freed dp rest (fsRemove fs (resolveTarget dp n))
      have htrans : ∀ x ∈ (deleteLoop dp rest
          (fsRemove fs (resolveTarget dp n))).1,
          fsRemove fs (resolveTarget dp n) (resolveTarget dp x) =
            fs (resolveTarget dp x) := by
        intro x hx
        obtain ⟨sx, hsx⟩ := ih.1 x hx
        by_cases hpath : resolveTarget dp x = resolveTarget dp n
        · rw [fsRemove] at hsx
          simp only [if_pos hpath] at hsx
          cases hsx
        · simp only [fsRemove, if_neg hpath]
      constructor
      · intro x hx
        rcases List.mem_cons.mp hx with rfl | hx2
        · exact ⟨s, hfs⟩
        · obtain ⟨sx, hsx⟩ := ih.1 x hx2
          exact ⟨sx, (htrans x hx2).symm.trans hsx⟩
      · rw [List.map_cons, List.sum_cons, hfs, ih.2]
        have hmapeq : List.map
            (fun m => (((fsRemove fs (resolveTarget dp n))
              (resolveTarget dp m)).size : ℚ) / 1048576)
            (deleteLoop dp rest (fsRemove fs (resolveTarget dp n))).1 =
          List.map
            (fun m => (((fs (resolveTarget dp m)).size : ℚ) / 1048576))
            (deleteLoop dp rest (fsRemove fs (resolveTarget dp n))).1 :=
          List.map_congr_left (fun x hx => by rw [htrans x hx])
        rw [hmapeq]
        rfl
    · dsimp only
      have ih := deleteLoop_freed dp rest fs
      constructor
      · intro x hx
        exact ih.1 x hx
      · rw [ih.2]

/-- A filename whose resolved path is absent when the executor starts gets a
`not found` failure record (removals never make it reappear). -/
theorem deleteLoop_not_found (dp : String) :
    ∀ (sel : List String) (fs : Fs),
      ∀ n ∈ sel, fs (resolveTarget dp n) = .absent →
        (n, "not found") ∈ (deleteLoop dp sel fs).2.1
  | [], _ => by
    intro n hn
    cases hn
  | m :: rest, fs => by
    rw [deleteLoop_cons]
    rcases hfs : fs (resolveTarget dp m) with _ | ⟨s, _ | msg⟩
    · dsimp only
      intro n hn habs
      rcases List.mem_cons.mp hn with rfl | hn2
      · exact List.mem_cons_self _ _
      · exact List.mem_cons_of_mem _
          (deleteLoop_not_found dp rest fs n hn2 habs)
    · dsimp only
      intro n hn habs
      rcases List.mem_cons.mp hn with rfl | hn2
      · rw [habs] at hfs
        cases hfs
      · refine deleteLoop_not_found dp rest _ n hn2 ?_
        by_cases hpath : resolveTarget dp n = resolveTarget dp m
        · simp [fsRemove, hpath]
        · simp only [fsRemove, if_neg hpath]
          exact habs
    · dsimp only
      intro n hn habs
      rcases List.mem_cons.mp hn with rfl | hn2
      · rw [habs] at hfs
        cases hfs
      · exact List.mem_cons_of_mem _
          (deleteLoop_not_found dp rest fs n hn2 habs)

/-- A filename whose resolved entry raises on removal gets an
`error: msg` failure record carrying the raised message. -/
theorem deleteLoop_error (dp : String) :
    ∀ (sel : List String) (fs : Fs),
      ∀ n ∈ sel, ∀ (s : Nat) (msg : String),
        fs (resolveTarget dp n) = .present s (some msg) →
          (n, "error: " ++ msg) ∈ (deleteLoop dp sel fs).2.1
  | [], _ => by
    intro n hn
    cases hn
  | m :: rest, fs => by
    rw [deleteLoop_cons]
    rcases hfs : fs (resolveTarget dp m) with _ | ⟨s0, _ | msg0⟩
    · dsimp only
      intro n hn s msg herr
      rcases List.mem_cons.mp hn with rfl | hn2
      · rw [herr] at hfs
        cases hfs
      · exact List.mem_cons_of_mem _
          (deleteLoop_error dp rest fs n hn2 s msg herr)
    · dsimp only
      intro n hn s msg herr
      rcases List.mem_cons.mp hn with rfl | hn2
      · rw [herr] at hfs
        cases hfs
      · refine deleteLoop_error dp rest _ n hn2 s msg ?_
        have hpath : resolveTarget dp n ≠ resolveTarget dp m := by
          intro hpath
          rw [hpath, hfs] at herr
          cases herr
        simp only [fsRemove, if_neg hpath]
        exact herr
    · dsimp only
      intro n hn s msg herr
      rcases List.mem_cons.mp hn with rfl | hn2
      · rw [herr] at hfs
        injection hfs with h1 h2
        injection h2 with h3
        rw [List.mem_cons]
        left
        rw [h3]
      · exact List.mem_cons_of_mem _
          (deleteLoop_error dp rest fs n hn2 s msg herr)

/-- On a duplicate-free selection, no filename lands in both `deleted` and
`failed`. -/
theorem deleteLoop_disjoint (dp : String) :
    ∀ (sel : List String) (fs : Fs), sel.Nodup →
      ∀ x, x ∈ (deleteLoop dp sel fs).1 →
        x ∉ (deleteLoop dp sel fs).2.1.map Prod.fst
  | [], _ => by
    intro _ x hx
    cases hx
  | n :: rest, fs => by
    rw [deleteLoop_cons]
    intro hnd
    have hnotin : n ∉ rest := (List.nodup_cons.mp hnd).1
    have hndrest : rest.Nodup := (List.nodup_cons.mp hnd).2
    rcases fs (resolveTarget dp n) with _ | ⟨s, _ | msg⟩
    · dsimp only
      intro x hx hmem
      rcases List.mem_map.mp hmem with ⟨pr, hpr, hfst⟩
      rcases List.mem_cons.mp hpr with rfl | hpr2
      · subst hfst
        exact hnotin (deleteLoop_deleted_subset dp rest fs _ hx)
      · exact deleteLoop_disjoint dp rest fs hndrest x hx
          (List.mem_map.mpr ⟨pr, hpr2, hfst⟩)
    · dsimp only
      intro x hx hmem
      rcases List.mem_cons.mp hx with rfl | hx2
      · rcases List.mem_map.mp hmem with ⟨pr, hpr, hfst⟩
        subst hfst
        exact hnotin (deleteLoop_failed_subset dp rest _ pr hpr)
      · exact deleteLoop_disjoint dp rest _ hndrest x hx2 hmem
    · dsimp only
      intro x hx hmem
      rcases List.mem_map.mp hmem with ⟨pr, hpr, hfst⟩
      rcases List.mem_cons.mp hpr with rfl | hpr2
      · subst hfst
        exact hnotin (deleteLoop_deleted_subset dp rest fs _ hx)
      · exact deleteLoop_disjoint dp rest fs hndrest x hx
          (List.mem_map.mpr ⟨pr, hpr2, hfst⟩)

/-- C4: the deletion executor attempts every selected filename independently
— each selected name ends in exactly one success or failure record, so one
entry's failure never aborts the rest — records a `not found` failure for a
filename whose resolved path does not exist, captures any other removal
error together with its message, and its freed-space total is the sum over
the successfully deleted entries only of the sizes re-observed at deletion
time (which, removal being the executor's only mutation, equal the sizes on
entry), in the code's megabyte scaling `size / 1048576`. -/
theorem delete_selected_files_spec (sel : List String) (dp : String)
    (fs : Fs) :
    ((delete_selected_files sel dp fs).1.deleted.length +
        (delete_selected_files sel dp fs).1.failed.length = sel.length) ∧
    ((delete_selected_files sel dp fs).1.count =
        (delete_selected_files sel dp fs).1.deleted.length) ∧
    (∀ n ∈ sel, fs (resolveTarget dp n) = FsEntry.absent →
      (n, "not found") ∈ (delete_selected_files sel dp fs).1.failed) ∧
    (∀ n ∈ sel, ∀ (s : Nat) (msg : String),
      fs (resolveTarget dp n) = FsEntry.present s (some msg) →
        (n, "error: " ++ msg) ∈ (delete_selected_files sel dp fs).1.failed) ∧
    (∀ n ∈ (delete_selected_files sel dp fs).1.deleted,
      ∃ s : Nat, fs (resolveTarget dp n) = FsEntry.present s none) ∧
    ((delete_selected_files sel dp fs).1.total_freed_mb =
      ((delete_selected_files sel dp fs).1.deleted.map
        (fun n => ((fs (resolveTarget dp n)).size : ℚ) / 1048576)).sum) :=
  ⟨deleteLoop_length dp sel fs, rfl,
   fun n hn h => deleteLoop_not_found dp sel fs n hn h,
   fun n hn s msg h => deleteLoop_error dp sel fs n hn s msg h,
   fun n hn => (deleteLoop_freed dp sel fs).1 n hn,
   (deleteLoop_freed dp sel fs).2⟩

/-- Witness for `delete_selected_files_spec`: of the three selected
filenames `a`, `b`, `c`, the externally missing `c` yields exactly one
`not found` failure while `a` and `b` succeed. -/
theorem delete_selected_files_spec_witness :
    fsExample (resolveTarget "/d" "c") = FsEntry.absent ∧
    ("c", "not found") ∈
      (delete_selected_files ["a", "b", "c"] "/d" fsExample).1.failed ∧
    (delete_selected_files ["a", "b", "c"] "/d" fsExample).1.deleted =
      ["a", "b"] ∧
    (delete_selected_files ["a", "b", "c"] "/d" fsExample).1.failed =
      [("c", "not found")] :=
  ⟨rfl,
   (delete_selected_files_spec ["a", "b", "c"] "/d" fsExample).2.2.1
     "c" (by decide) rfl,
   rfl, rfl⟩

/-- C8 counterexample: with the duplicate selection `["a", "a"]` of an
existing file the first occurrence is deleted and the second — whose path no
longer exists by then — fails, so the filename `a` appears both as a success
and as the filename of a failure record. -/
theorem delete_selected_files_duplicate_overlap :
    (delete_selected_files ["a", "a"] "/d"
        (fun p => if p = "/d/a" then FsEntry.present 4 none
          else FsEntry.absent)).1.deleted = ["a"] ∧
    (delete_selected_files ["a", "a"] "/d"
        (fun p => if p = "/d/a" then FsEntry.present 4 none
          else FsEntry.absent)).1.failed = [("a", "not found")] ∧
    "a" ∈ (delete_selected_files ["a", "a"] "/d"
        (fun p => if p = "/d/a" then FsEntry.present 4 none
          else FsEntry.absent)).1.deleted ∧
    "a" ∈ ((delete_selected_files ["a", "a"] "/d"
        (fun p => if p = "/d/a" then FsEntry.present 4 none
          else FsEntry.absent)).1.failed.map Prod.fst) :=
  ⟨rfl, rfl, by decide, by decide⟩

/-- C8 (amended): for every duplicate-free selection, the outcome's
succeeded and failed sets are disjoint — no filename appears both in
`deleted` and as the filename of a failure record.  (A selection repeating a
filename makes the sets overlap, as the counterexample shows.) -/
theorem delete_selected_files_disjoint (sel : List String) (dp : String)
    (fs : Fs) (hnd : sel.Nodup) :
    ∀ x ∈ (delete_selected_files sel dp fs).1.deleted,
      x ∉ ((delete_selected_files sel dp fs).1.failed.map Prod.fst) :=
  fun x hx => deleteLoop_disjoint dp sel fs hnd x hx

/-- Witness for `delete_selected_files_disjoint`, at the duplicate-free
selection `["a", "c"]`. -/
theorem delete_selected_files_disjoint_witness :
    (["a", "c"] : List String).Nodup ∧
    "a" ∉ ((delete_selected_files ["a", "c"] "/d" fsExample).1.failed.map
      Prod.fst) :=
  ⟨by decide,
   delete_selected_files_disjoint ["a", "c"] "/d" fsExample (by decide)
     "a" (by decide)⟩

/-- C10: the deletion executor resolves each target as the scanned directory
joined with the untrusted, oracle-supplied filename, with no containment
check; for the selected filename `../x` the resolved path normalizes to a
location outside the scanned directory's subtree, and the executor attempts
(and performs) the removal at that escaped path. -/
theorem resolveTarget_traversal :
    (∀ dp fn : String, resolveTarget dp fn = dp ++ "/" ++ fn) ∧
    staysWithin "/Users/u/Downloads" "../x" = false ∧
    normalizePath (pathComponents
      (resolveTarget "/Users/u/Downloads" "../x")) = ["Users", "u", "x"] ∧
    (delete_selected_files ["../x"] "/Users/u/Downloads"
        (fun p => if p = "/Users/u/Downloads/../x"
          then FsEntry.present 7 none else FsEntry.absent)).1.deleted =
      ["../x"] ∧
    (delete_selected_files ["../x"] "/Users/u/Downloads"
        (fun p => if p = "/Users/u/Downloads/../x"
          then FsEntry.present 7 none else FsEntry.absent)).2
      "/Users/u/Downloads/../x" = FsEntry.absent :=
  ⟨fun dp fn => rfl, by decide, by decide, rfl, rfl⟩

/-! ## Suppression-store and session lemmas -/

/-- `save_kept_file` in `Prop` form: a no-op when the filename is already
present, an append plus a metadata bump otherwise. -/
theorem save_kept_file_eq (fn t : String) (d : KeptData) :
    save_kept_file fn t d =
      if fn ∈ keptFilenames d then d
      else ⟨d.kept_files ++ [⟨fn, t, "User explicitly marked as keep"⟩],
        some t⟩ := by
  rw [save_kept_file]
  by_cases h : fn ∈ keptFilenames d
  · rw [if_pos h]
    simp [List.contains, List.elem_eq_mem, h]
  · rw [if_neg h]
    simp [List.contains, List.elem_eq_mem, h]

theorem mem_save_kept_file_self (fn t : String) (d : KeptData) :
    fn ∈ keptFilenames (save_kept_file fn t d) := by
  rw [save_kept_file_eq]
  by_cases h : fn ∈ keptFilenames d
  · rw [if_pos h]
    exact h
  · rw [if_neg h]
    simp [keptFilenames]

theorem mem_save_kept_file_mono (m fn t : String) (d : KeptData)
    (h : m ∈ keptFilenames d) :
    m ∈ keptFilenames (save_kept_file fn t d) := by
  rw [save_kept_file_eq]
  by_cases h2 : fn ∈ keptFilenames d
  · rw [if_pos h2]
    exact h
  · rw [if_neg h2]
    simp only [keptFilenames, List.map_append]
    exact List.mem_append_left _ h

/-- Folding `save_kept_file` over a list of names preserves existing store
membership and establishes membership of every folded name. -/
theorem mem_keptFilenames_foldl_save (now : String) :
    ∀ (names : List String) (store : KeptData),
      (∀ m ∈ keptFilenames store,
        m ∈ keptFilenames (names.foldl
          (fun acc fn => save_kept_file fn now acc) store)) ∧
      (∀ n ∈ names,
        n ∈ keptFilenames (names.foldl
          (fun acc fn => save_kept_file fn now acc) store))
  | [], store => by
    constructor
    · intro m hm
      exact hm
    · intro n hn
      cases hn
  | fn :: rest, store => by
    constructor
    · intro m hm
      exact (mem_keptFilenames_foldl_save now rest _).1 m
        (mem_save_kept_file_mono m fn now store hm)
    · intro n hn
      rcases List.mem_cons.mp hn with rfl | hn2
      · exact (mem_keptFilenames_foldl_save now rest _).1 n
          (mem_save_kept_file_self n now store)
      · exact (mem_keptFilenames_foldl_save now rest _).2 n hn2

/-- C1: in a session where the operator made a non-empty delete-selection
and then declined (or cancelled/dismissed, both of which `if confirm:`
treats as false) the confirmation prompt, `delete_selected_files` is never
invoked — no `DeletionOutcome` is produced — and the filesystem is exactly
the one the session started from: nothing was removed. -/
theorem confirmation_gate_declined (p : OraclePayload) (dp : String)
    (fs : Fs) (store : KeptData) (ans : SessionAnswers) (now : String)
    (hsel : interactive_file_selection p ans.deleteSelection ≠ [])
    (hconf : ans.confirmAnswer = none ∨ ans.confirmAnswer = some false) :
    (run_cleanup_session p dp fs store ans now).outcome = none ∧
    (run_cleanup_session p dp fs store ans now).fs = fs := by
  have hp : ¬ suggestionList p = [] := by
    intro h
    exact hsel (by simp [interactive_file_selection, h])
  have hcf : ans.confirmAnswer.getD false = false := by
    rcases hconf with h | h <;> rw [h] <;> rfl
  rw [run_cleanup_session, if_neg hp]
  dsimp only
  rw [if_neg hsel, hcf]
  simp

/-- Witness for `confirmation_gate_declined`: one suggested file, selected
for deletion, with the confirmation answered `no`. -/
theorem confirmation_gate_declined_witness :
    (run_cleanup_session
        { suggestions := some [⟨"a", none, some "high", none, none⟩]
          summary := none }
        "/d" fsExample ⟨[], none⟩ ⟨some ["a"], some false, none⟩
        "t").outcome = none ∧
    (run_cleanup_session
        { suggestions := some [⟨"a", none, some "high", none, none⟩]
          summary := none }
        "/d" fsExample ⟨[], none⟩ ⟨some ["a"], some false, none⟩
        "t").fs = fsExample :=
  confirmation_gate_declined
    { suggestions := some [⟨"a", none, some "high", none, none⟩]
      summary := none }
    "/d" fsExample ⟨[], none⟩ ⟨some ["a"], some false, none⟩ "t"
    (by decide) (Or.inr rfl)

/-- C9: with a non-empty suggestion batch the keep step runs after the
deletion branch and regardless of its outcome: the keep checklist offers the
original suggestion batch (including items deleted earlier in the same
session), the resulting store is the fold of `save_kept_file` over the
keep-selection whatever the delete-selection and confirmation were, and a
filename both deleted and marked keep ends recorded as both — deleted in the
outcome and present in the suppression store — with no conflict check. -/
theorem keep_step_after_deletion (p : OraclePayload) (dp : String)
    (fs : Fs) (store : KeptData) (ans : SessionAnswers) (now : String)
    (hne : suggestionList p ≠ []) :
    (run_cleanup_session p dp fs store ans now).keepChoices =
      (suggestionList p).map choiceOfItem ∧
    (run_cleanup_session p dp fs store ans now).store =
      (ans.keepSelection.getD []).foldl
        (fun acc fn => save_kept_file fn now acc) store ∧
    (∀ n ∈ ans.keepSelection.getD [],
      n ∈ keptFilenames (run_cleanup_session p dp fs store ans now).store) ∧
    (∀ out, (run_cleanup_session p dp fs store ans now).outcome = some out →
      ∀ n ∈ out.deleted, n ∈ ans.keepSelection.getD [] →
        n ∈ out.deleted ∧
          n ∈ keptFilenames
            (run_cleanup_session p dp fs store ans now).store) := by
  have hmark : mark_files_as_keep p ans.keepSelection =
      ans.keepSelection.getD [] := by
    rw [mark_files_as_keep, if_neg hne]
  have hstore : (run_cleanup_session p dp fs store ans now).store =
      (ans.keepSelection.getD []).foldl
        (fun acc fn => save_kept_file fn now acc) store := by
    rw [run_cleanup_session, if_neg hne]
    dsimp only
    rw [hmark]
  refine ⟨?_, hstore, fun n hn => ?_, fun out hout n hdel hkeep => ?_⟩
  · rw [run_cleanup_session, if_neg hne]
    rfl
  · rw [hstore]
    exact (mem_keptFilenames_foldl_save now (ans.keepSelection.getD [])
      store).2 n hn
  · refine ⟨hdel, ?_⟩
    rw [hstore]
    exact (mem_keptFilenames_foldl_save now (ans.keepSelection.getD [])
      store).2 n hkeep

/-- Witness for `keep_step_after_deletion`: one suggested file `a`, deleted
with confirmation and simultaneously marked keep; it ends in the suppression
store. -/
theorem keep_step_after_deletion_witness :
    suggestionList
      { suggestions := some [⟨"a", none, some "high", none, none⟩]
        summary := none } ≠ [] ∧
    "a" ∈ keptFilenames
      (run_cleanup_session
        { suggestions := some [⟨"a", none, some "high", none, none⟩]
          summary := none }
        "/d" fsExample ⟨[], none⟩ ⟨some ["a"], some true, some ["a"]⟩
        "t").store :=
  ⟨by decide,
   (keep_step_after_deletion
      { suggestions := some [⟨"a", none, some "high", none, none⟩]
        summary := none }
      "/d" fsExample ⟨[], none⟩ ⟨some ["a"], some true, some ["a"]⟩ "t"
      (by decide)).2.2.1 "a" (by decide)⟩

end DownloadCleanup
